import Mathlib

/-!
# Verification of the SpeakWell grading engine

A shallow embedding of `backend/grading_engine.py` and the grading-reset
branch of `backend/grading.py`, together with theorems settling the claims
about the pacing analyzer, clarity analyzer, content grader and grading
orchestrator.

Modelling conventions:
* Python floats are modelled as exact rationals (`ℚ`); `round(x, n)` is
  Python's round-half-to-even (`pyRound`), `int(x)` truncates toward zero
  (`pyInt`).
* Word/criterion records become Lean structures; JSON values coming from the
  external service become `Option`-typed fields (a missing key maps to
  `none`, matching Python's `dict.get` defaults).
* Calls that may raise a Python exception are modelled with `Except Unit`
  results where the claim under scrutiny is about exception behaviour.
-/

namespace SpeakWell

/-- Floor of a rational, computed from its reduced fraction. -/
def ratFloor (q : ℚ) : ℤ := q.num.fdiv q.den

/-- Ceiling of a rational, computed from its reduced fraction. -/
def ratCeil (q : ℚ) : ℤ := -((-q.num).fdiv q.den)

/-- Python `int(x)`: truncation toward zero. -/
def pyInt (q : ℚ) : ℤ := if q < 0 then ratCeil q else ratFloor q

/-- Round a rational to the nearest integer, ties to even — the rounding used
by Python's built-in `round`. -/
def roundHalfEven (q : ℚ) : ℤ :=
  let f := ratFloor q
  let r := q - f
  if r < 1/2 then f
  else if 1/2 < r then f + 1
  else if f % 2 = 0 then f else f + 1

/-- Python `round(q, n)` for `n` decimal places (half-to-even). -/
def pyRound (q : ℚ) (n : ℕ) : ℚ := (roundHalfEven (q * 10 ^ n) : ℚ) / 10 ^ n

/-- `statistics.variance`: sample variance with exact mean, denominator `n-1`. -/
def sampleVariance (l : List ℚ) : ℚ :=
  let n : ℚ := l.length
  let m := l.sum / n
  ((l.map fun x => (x - m) ^ 2).sum) / (n - 1)

/-! ## Pacing analyzer (`analyze_pacing`) -/

/-- One timestamped word of a transcript: `{"word": ..., "start": ..., "end": ...}`.
`end` is a Lean keyword, so the field is called `stop`. -/
structure Word where
  word : String
  start : ℚ
  stop : ℚ
  deriving DecidableEq, Repr, Inhabited

/-- One pacing-timeline segment `{"start": ..., "end": ..., "wpm": ...}`. -/
structure Seg where
  start : ℚ
  stop : ℚ
  wpm : ℚ
  deriving DecidableEq, Repr, Inhabited

/-- State of the 60-second segmentation loop in `analyze_pacing`:
`cs` is `current_segment_start`, `cnt` is `current_segment_words`, `segs` the
closed segments.  `attrs` additionally records, for each word processed, the
value of `current_segment_start` at the moment the word was counted
(`current_segment_words += 1`) — the window the word is attributed to. -/
structure SegState where
  cs : ℚ
  cnt : ℕ
  segs : List Seg
  attrs : List ℚ
  deriving DecidableEq, Repr, Inhabited

/-- The body of the `for word in words` segmentation loop of `analyze_pacing`.
Note the loop advances the window start by at most one `segment_duration`
(60 s) per word, exactly as in the source. -/
def segStep (st : SegState) (w : Word) : SegState :=
  if w.start ≥ st.cs + 60 then
    { cs := st.cs + 60
      cnt := 1
      segs := if st.cnt > 0 then st.segs ++ [⟨st.cs, st.cs + 60, (st.cnt : ℚ)⟩] else st.segs
      attrs := st.attrs ++ [st.cs + 60] }
  else
    { st with cnt := st.cnt + 1, attrs := st.attrs ++ [st.cs] }

/-- Initial segmentation state: window starts at the first word's `start`. -/
def segInit (words : List Word) : SegState := ⟨words.headI.start, 0, [], []⟩

/-- The window start each word is counted under, obtained by replaying the
segmentation loop. -/
def wordAttribution (words : List Word) : List ℚ :=
  (words.foldl segStep (segInit words)).attrs

/-- `wpm` of the final (possibly partial) segment: count normalized to the
segment's elapsed duration, guarded against a zero/negative duration. -/
def finalSegWpm (cnt : ℕ) (cs tEnd : ℚ) : ℚ :=
  if tEnd > cs then (pyInt ((cnt : ℚ) / ((tEnd - cs) / 60)) : ℚ) else (cnt : ℚ)

/-- The pacing timeline of `analyze_pacing`: the closed 60-second segments plus
the final segment (appended only when it holds at least one word). -/
def pacingTimeline (words : List Word) : List Seg :=
  let st := words.foldl segStep (segInit words)
  let tEnd := (words.getLastD default).stop
  if st.cnt > 0 then st.segs ++ [⟨st.cs, tEnd, finalSegWpm st.cnt st.cs tEnd⟩]
  else st.segs

/-- `total_duration_minutes = (end_time - start_time) / 60.0`. -/
def totalDurationMinutes (words : List Word) : ℚ :=
  ((words.getLastD default).stop - words.headI.start) / 60

/-- `wpm_avg = len(words) / total_duration_minutes if total_duration_minutes > 0 else 0`. -/
def pacingWpmAvgRaw (words : List Word) : ℚ :=
  let tdm := totalDurationMinutes words
  if tdm > 0 then (words.length : ℚ) / tdm else 0

/-- Sample variance of the per-segment wpm values (0 with at most one segment). -/
def pacingVarianceRaw (words : List Word) : ℚ :=
  let ws := (pacingTimeline words).map (·.wpm)
  if 1 < ws.length then sampleVariance ws else 0

/-- The gaps between consecutive words exceeding 1.0 second (the detected pauses). -/
def pauseGaps (words : List Word) : List ℚ :=
  ((words.zip words.tail).map fun p => p.2.start - p.1.stop).filter (· > 1)

/-- The pacing score computation of `analyze_pacing` (before final rounding):
speed band penalties, variance penalty, pause-naturalness penalty, clamped to
`[0, 100]`. -/
def pacingScoreCalc (wpmAvg wpmVar : ℚ) (pauseCount : ℕ) (tdm : ℚ) : ℚ :=
  let score : ℚ := 100
  let score :=
    if wpmAvg < 100 then score - (100 - wpmAvg) * 0.5
    else if wpmAvg > 200 then score - (wpmAvg - 200) * 0.3
    else if wpmAvg < 130 then score - (130 - wpmAvg) * 0.2
    else if wpmAvg > 170 then score - (wpmAvg - 170) * 0.2
    else score
  let score := if wpmVar > 400 then score - min 20 ((wpmVar - 400) / 50) else score
  let expectedPauseRate := tdm * 0.5
  let pauseDiff := |(pauseCount : ℚ) - expectedPauseRate|
  let score := if pauseDiff > 5 then score - min 10 pauseDiff else score
  max 0 (min 100 score)

/-- Result dictionary of `analyze_pacing`. -/
structure PacingResult where
  wpm_avg : ℚ
  wpm_variance : ℚ
  pause_count : ℕ
  pause_avg_duration : ℚ
  pacing_score : ℚ
  pacing_timeline : List Seg
  deriving DecidableEq, Repr, Inhabited

/-- `analyze_pacing`: word-timestamp sequence to pacing metrics and score. -/
def analyzePacing (words : List Word) : PacingResult :=
  if words.length < 10 then ⟨0, 0, 0, 0, 0, []⟩
  else
    let tdm := totalDurationMinutes words
    let wpmAvg := pacingWpmAvgRaw words
    let wpmVar := pacingVarianceRaw words
    let pauses := pauseGaps words
    let pauseAvg := if pauses = [] then 0 else pauses.sum / (pauses.length : ℚ)
    let score := pacingScoreCalc wpmAvg wpmVar pauses.length tdm
    ⟨pyRound wpmAvg 1, pyRound wpmVar 1, pauses.length, pyRound pauseAvg 2,
      pyRound score 1, pacingTimeline words⟩

/-! ## Clarity analyzer (`analyze_clarity`) -/

/-- The `FILLER_WORDS` lexicon, in the order written in the source.  (The
source stores it in a Python `set`; iteration order only affects the order in
which multi-word entries are appended to the frequency map.) -/
def FILLER_WORDS : List String :=
  ["um", "uh", "like", "you know", "so", "actually", "basically",
   "literally", "kind of", "sort of", "i mean", "you see", "right",
   "okay", "well", "anyway", "just"]

/-- `dict.get(k, 0)` on an insertion-ordered association list. -/
def mapGet (m : List (String × ℕ)) (k : String) : ℕ :=
  (((m.find? fun p => p.1 == k).map fun p => p.2).getD 0)

/-- `d[k] = v` on an insertion-ordered association list: update in place when
the key exists, append otherwise — Python dict semantics. -/
def mapSet (m : List (String × ℕ)) (k : String) (v : ℕ) : List (String × ℕ) :=
  match m with
  | [] => [(k, v)]
  | p :: rest => if p.1 == k then (k, v) :: rest else p :: mapSet rest k v

/-- A word character for the purpose of the `\b` regex boundary.  (Python's
`\w` is Unicode-aware; the lexicon and transcripts here are plain text, so
alphanumeric-or-underscore is the relevant fragment.) -/
def isWordChar (c : Char) : Bool := c.isAlphanum || c = '_'

/-- Match a literal pattern at the head of `txt`, returning the remainder. -/
def matchesAt : List Char → List Char → Option (List Char)
  | [], txt => some txt
  | _ :: _, [] => none
  | p :: ps, c :: cs => if p = c then matchesAt ps cs else none

theorem matchesAt_length :
    ∀ (pat txt rem : List Char), matchesAt pat txt = some rem →
      rem.length + pat.length = txt.length := by
  intro pat
  induction pat with
  | nil => intro txt rem h; simp [matchesAt] at h; simp [h]
  | cons p ps ih =>
    intro txt rem h
    cases txt with
    | nil => simp [matchesAt] at h
    | cons c cs =>
      simp only [matchesAt] at h
      split at h
      · have := ih cs rem h
        simp [List.length_cons, ← this]; omega
      · exact absurd h (by simp)

/-- `len(re.findall(r'\b' + re.escape(pat) + r'\b', txt))` for a literal
pattern beginning with `p` (the lexicon's multi-word fillers begin and end
with letters): scan left to right, counting non-overlapping word-boundary
delimited occurrences and resuming after each match. -/
def fillerScan (p : Char) (ps : List Char) (prevW : Bool) : List Char → ℕ
  | [] => 0
  | c :: rest =>
    match h : if prevW then none else matchesAt (p :: ps) (c :: rest) with
    | some rem =>
      if rem.isEmpty || !isWordChar (rem.headI) then
        1 + fillerScan p ps (isWordChar (ps.getLastD p)) rem
      else fillerScan p ps (isWordChar c) rest
    | none => fillerScan p ps (isWordChar c) rest
termination_by l => l.length
decreasing_by
  · simp only [List.length_cons]
    have hm : matchesAt (p :: ps) (c :: rest) = some rem := by
      by_cases hp : prevW
      · simp [hp] at h
      · simpa [hp] using h
    have := matchesAt_length (p :: ps) (c :: rest) rem hm
    simp [List.length_cons] at this
    omega
  · simp
  · simp

/-- Occurrence count of one multi-word filler in the lowercased transcript. -/
def countFillerIn (filler : String) (textLower : String) : ℕ :=
  match filler.toList with
  | [] => 0
  | p :: ps => fillerScan p ps false textLower.toList

/-- The single-word filler pass: each word's lowercased, trimmed text is
checked for lexicon membership; returns the frequency map and total count. -/
def fillerSinglePass (words : List Word) : List (String × ℕ) × ℕ :=
  words.foldl
    (fun acc w =>
      let wl := w.word.toLower.trim
      if wl ∈ FILLER_WORDS then (mapSet acc.1 wl (mapGet acc.1 wl + 1), acc.2 + 1)
      else acc)
    ([], 0)

/-- The multi-word filler pass over the lowercased full transcript text. -/
def fillerMultiPass (textLower : String) (acc : List (String × ℕ) × ℕ) :
    List (String × ℕ) × ℕ :=
  FILLER_WORDS.foldl
    (fun acc filler =>
      if filler.contains ' ' then
        let count := countFillerIn filler textLower
        if count > 0 then (mapSet acc.1 filler (mapGet acc.1 filler + count), acc.2 + count)
        else acc
      else acc)
    acc

/-- Insert into a list sorted by descending count, after all entries with a
strictly greater-or-equal count already present earlier (stable). -/
def insertByCountDesc (p : String × ℕ) : List (String × ℕ) → List (String × ℕ)
  | [] => [p]
  | q :: rest => if q.2 > p.2 then q :: insertByCountDesc p rest else p :: q :: rest

/-- Python `sorted(items, key=lambda x: x[1], reverse=True)`: stable sort by
descending count. -/
def sortByCountDesc : List (String × ℕ) → List (String × ℕ)
  | [] => []
  | p :: rest => insertByCountDesc p (sortByCountDesc rest)

/-- The clarity score computation: filler penalty bands, nonsensical penalty
bands, clamp to `[0, 100]`. -/
def clarityScoreCalc (fillerPct nonsensicalPct : ℚ) : ℚ :=
  let score : ℚ := 100
  let score :=
    if fillerPct < 2 then score
    else if fillerPct < 5 then score - (fillerPct - 2) * 5
    else score - (15 + (fillerPct - 5) * 3)
  let score :=
    if nonsensicalPct < 1 then score
    else if nonsensicalPct < 3 then score - (nonsensicalPct - 1) * 10
    else score - (20 + (nonsensicalPct - 3) * 5)
  max 0 (min 100 score)

/-- Result dictionary of `analyze_clarity`. -/
structure ClarityResult where
  filler_word_count : ℕ
  filler_word_percentage : ℚ
  nonsensical_word_count : ℕ
  nonsensical_word_percentage : ℚ
  clarity_score : ℚ
  filler_words_breakdown : List (String × ℕ)
  nonsensical_words : List String
  deriving DecidableEq, Repr, Inhabited

/-- `analyze_clarity`.  The external nonsensical-word call is modelled by
`nonsensicalSvc`: `some ws` is a successfully parsed flagged-word list, `none`
is the `except Exception` path (network error, malformed response, service
error), in which the source continues with an empty list. -/
def analyzeClarity (words : List Word) (transcriptText : String)
    (nonsensicalSvc : Option (List String)) : ClarityResult :=
  if words.isEmpty then ⟨0, 0, 0, 0, 0, [], []⟩
  else
    let totalWords := words.length
    let single := fillerSinglePass words
    let fillers := fillerMultiPass transcriptText.toLower single
    let fillerPct := if totalWords > 0 then (fillers.2 : ℚ) / totalWords * 100 else 0
    let breakdown := sortByCountDesc fillers.1
    let nw : List String × ℕ :=
      match nonsensicalSvc with
      | none => ([], 0)
      | some ws => (ws, ws.length)
    let nonsensicalPct := if totalWords > 0 then (nw.2 : ℚ) / totalWords * 100 else 0
    let score := clarityScoreCalc fillerPct nonsensicalPct
    ⟨fillers.2, pyRound fillerPct 2, nw.2, pyRound nonsensicalPct 2, pyRound score 1,
      breakdown, nw.1⟩

/-! ## Content grader (`grade_content_with_rubric`) -/

/-- A rubric criterion row (`RubricCriterion`). -/
structure Criterion where
  id : String
  name : String
  description : String
  max_score : ℚ
  weight : ℚ
  order_index : ℤ
  deriving DecidableEq, Repr, Inhabited

/-- One entry of the `scores` array parsed from the external service's JSON
response.  Each field is optional: the source reads them with
`score_obj.get(...)` and supplies defaults. -/
structure ScoreObj where
  criterion_id : Option String
  score : Option ℚ
  feedback : Option String
  deriving DecidableEq, Repr, Inhabited

/-- One entry of the `criterion_scores` list built by
`grade_content_with_rubric`. -/
structure CScore where
  criterion_id : String
  criterion_name : String
  score : ℚ
  max_score : ℚ
  feedback : String
  deriving DecidableEq, Repr, Inhabited

/-- Lookup in `criterion_map = {c.id: c for c in criteria}`: a Python dict
comprehension keeps the last criterion inserted under a duplicated id. -/
def criterionMapFind (criteria : List Criterion) (cid : String) : Option Criterion :=
  criteria.reverse.find? fun c => c.id == cid

/-- The per-entry reconciliation of `grade_content_with_rubric`: try the
returned `criterion_id` against the criterion map (Python truthiness: an empty
id is falsy and skips the map lookup); fall back to matching by position;
otherwise drop the entry.  Returns the matched criterion together with the
criterion id recorded on the entry. -/
def matchCriterion (criteria : List Criterion) (idx : ℕ) :
    Option String → Option (Criterion × String)
  | some c =>
    if c ≠ "" then
      match criterionMapFind criteria c with
      | some cr => some (cr, c)
      | none => (criteria.get? idx).map fun cr => (cr, cr.id)
    else (criteria.get? idx).map fun cr => (cr, cr.id)
  | none => (criteria.get? idx).map fun cr => (cr, cr.id)

/-- The `for idx, score_obj in enumerate(scores_list)` loop building
`criterion_scores`: matched entries are recorded with the criterion's name and
`max_score`, the returned score capped via `min(score, max_score)`; unmatched
entries are dropped. -/
def contentScoreEntries (criteria : List Criterion) : ℕ → List ScoreObj → List CScore
  | _, [] => []
  | idx, s :: rest =>
    match matchCriterion criteria idx s.criterion_id with
    | some (cr, cid) =>
      ⟨cid, cr.name, min (s.score.getD 0) cr.max_score, cr.max_score, s.feedback.getD ""⟩ ::
        contentScoreEntries criteria (idx + 1) rest
    | none => contentScoreEntries criteria (idx + 1) rest

/-- Result dictionary of `grade_content_with_rubric`. -/
structure ContentResult where
  criterion_scores : List CScore
  overall_feedback : String
  deriving DecidableEq, Repr, Inhabited

/-- `grade_content_with_rubric`.  The external call and JSON parse are
modelled by `serviceResponse`: `Except.ok (scores, feedback)` is a parsed
response, `Except.error msg` the `except Exception` path. -/
def gradeContentWithRubric (criteria : List Criterion)
    (serviceResponse : Except String (List ScoreObj × String)) : ContentResult :=
  if criteria.isEmpty then ⟨[], "No rubric criteria available for grading."⟩
  else
    match serviceResponse with
    | .error msg => ⟨[], "Error during grading: " ++ msg⟩
    | .ok (scoresList, feedback) => ⟨contentScoreEntries criteria 0 scoresList, feedback⟩

/-! ## Grading orchestrator (`grade_presentation`) and re-grading reset -/

/-- The lifecycle status of a `Grading` row. -/
inductive GradingStatus where
  | processing
  | completed
  | failed
  deriving DecidableEq, Repr, Inhabited

/-- The `detailed_results` JSON blob written on completion. -/
structure DetailedResults where
  criterion_scores : List CScore
  filler_words : List (String × ℕ)
  nonsensical_words : List String
  pacing_timeline : List Seg
  ai_feedback : String
  deriving DecidableEq, Repr, Inhabited

/-- The `gradings` row; score fields are nullable (`Option`). -/
structure GradingRec where
  id : String
  transcript_id : String
  rubric_id : String
  graded_by_user_id : Option String
  status : GradingStatus
  overall_score : Option ℚ
  max_possible_score : Option ℚ
  pacing_wpm_avg : Option ℚ
  pacing_wpm_variance : Option ℚ
  pacing_pause_count : Option ℕ
  pacing_score : Option ℚ
  clarity_filler_word_count : Option ℕ
  clarity_filler_word_percentage : Option ℚ
  clarity_nonsensical_word_count : Option ℕ
  clarity_score : Option ℚ
  detailed_results : Option DetailedResults
  source_type : Option String
  context_type : Option String
  context_id : Option String
  is_official : ℕ
  deriving DecidableEq, Repr, Inhabited

/-- All ten numeric score fields of a `Grading` are null/unset. -/
def scoresUnset (g : GradingRec) : Prop :=
  g.overall_score = none ∧ g.max_possible_score = none ∧
  g.pacing_wpm_avg = none ∧ g.pacing_wpm_variance = none ∧
  g.pacing_pause_count = none ∧ g.pacing_score = none ∧
  g.clarity_filler_word_count = none ∧ g.clarity_filler_word_percentage = none ∧
  g.clarity_nonsensical_word_count = none ∧ g.clarity_score = none

instance (g : GradingRec) : Decidable (scoresUnset g) := by
  unfold scoresUnset; infer_instance

/-- A stored transcript: text plus the optional word-timestamps payload. -/
structure Transcript where
  text : String
  word_timestamps : Option (List Word)
  deriving Repr, Inhabited

/-- `total_weighted_score`: for each returned criterion score, find the
matching criterion by id (`next(...)`, first match) and accumulate
`score × weight`; unmatched entries contribute nothing.  (The source also
accumulates a `total_weight` it never uses.) -/
def totalWeightedScore (scores : List CScore) (criteria : List Criterion) : ℚ :=
  (scores.map fun s =>
    match criteria.find? (fun c => c.id == s.criterion_id) with
    | some c => s.score * c.weight
    | none => 0).sum

/-- `max_possible_score = sum(c.max_score * c.weight for c in criteria)` —
over ALL criteria of the rubric. -/
def maxPossibleScore (criteria : List Criterion) : ℚ :=
  (criteria.map fun c => c.max_score * c.weight).sum

/-- `overall_score` before rounding: percentage of the weighted total against
the full-rubric maximum, guarded against a zero maximum. -/
def overallScoreRaw (scores : List CScore) (criteria : List Criterion) : ℚ :=
  if maxPossibleScore criteria > 0
  then totalWeightedScore scores criteria / maxPossibleScore criteria * 100
  else 0

/-- `grade_presentation`, as a transformer of the `Grading` row.

The SQLAlchemy session makes every attribute assignment on `grading` pending;
each exit path ends in `db.commit()` (the success path at the end of the
`try`, the failure paths — including the `except Exception` handler, which
re-queries the same identity-mapped object — immediately after flipping the
status), so the returned record is exactly what is persisted.

The three analysis/grading calls are modelled by function arguments returning
`Except Unit`: `.error ()` represents a Python exception raised inside the
call and not handled there (e.g. a malformed word-timestamp entry raising
`KeyError` inside `analyze_clarity`'s filler loop), which the orchestrator's
`except Exception` catches. -/
def gradePresentation (g : GradingRec)
    (transcript : Option Transcript) (rubricFound : Bool)
    (criteria : List Criterion)
    (pacingF : List Word → Except Unit PacingResult)
    (clarityF : List Word → String → Except Unit ClarityResult)
    (contentF : String → List Criterion → Except Unit ContentResult) :
    GradingRec :=
  let g := { g with status := GradingStatus.processing }
  match transcript with
  | none => { g with status := GradingStatus.failed }
  | some transcript =>
    if !rubricFound then { g with status := GradingStatus.failed }
    else
      let words := transcript.word_timestamps.getD []
      match pacingF words with
      | .error _ => { g with status := GradingStatus.failed }
      | .ok pacing =>
        let g := { g with
          pacing_wpm_avg := some pacing.wpm_avg
          pacing_wpm_variance := some pacing.wpm_variance
          pacing_pause_count := some pacing.pause_count
          pacing_score := some pacing.pacing_score }
        match clarityF words transcript.text with
        | .error _ => { g with status := GradingStatus.failed }
        | .ok clarity =>
          let g := { g with
            clarity_filler_word_count := some clarity.filler_word_count
            clarity_filler_word_percentage := some clarity.filler_word_percentage
            clarity_nonsensical_word_count := some clarity.nonsensical_word_count
            clarity_score := some clarity.clarity_score }
          match contentF transcript.text criteria with
          | .error _ => { g with status := GradingStatus.failed }
          | .ok content =>
            let overall := overallScoreRaw content.criterion_scores criteria
            { g with
              overall_score := some (pyRound overall 1)
              max_possible_score := some (maxPossibleScore criteria)
              detailed_results := some
                ⟨content.criterion_scores, clarity.filler_words_breakdown,
                  clarity.nonsensical_words, pacing.pacing_timeline,
                  content.overall_feedback⟩
              status := GradingStatus.completed }

/-- The `replace_existing` branch of `initiate_grading`: reset the existing
`Grading` row to `processing`, null out every score field, and record the new
grading context, before the pipeline reruns. -/
def resetExistingGrading (g : GradingRec) (userId : String)
    (sourceType contextType : String) (contextId : Option String)
    (isOfficial : Bool) : GradingRec :=
  { g with
    status := GradingStatus.processing
    overall_score := none
    max_possible_score := none
    pacing_wpm_avg := none
    pacing_wpm_variance := none
    pacing_pause_count := none
    pacing_score := none
    clarity_filler_word_count := none
    clarity_filler_word_percentage := none
    clarity_nonsensical_word_count := none
    clarity_score := none
    detailed_results := none
    graded_by_user_id := some userId
    source_type := some sourceType
    context_type := some contextType
    context_id := contextId
    is_official := if isOfficial then 1 else 0 }

end SpeakWell

unseal Rat.add Rat.mul Rat.sub Rat.inv Rat.ofScientific

namespace SpeakWell

/-! ## Claims -/

/-- Claim C6: for every word sequence with fewer than 10 entries (including
the empty sequence), `analyze_pacing` returns all-zero metrics
(`wpm_avg = 0`, `wpm_variance = 0`, `pause_count = 0`, `pacing_score = 0`)
and an empty timeline. -/
theorem analyzePacing_short_input_zeroed (words : List Word)
    (h : words.length < 10) :
    analyzePacing words = ⟨0, 0, 0, 0, 0, []⟩ := by
  simp [analyzePacing, h]

/-- Witness for C6: the concrete three-word input is short, and the analyzer
returns the zeroed result on it. -/
theorem analyzePacing_short_input_zeroed_witness :
    [(⟨"um", 0, 1⟩ : Word), ⟨"hello", 1, 2⟩, ⟨"world", 2, 3⟩].length < 10 ∧
      analyzePacing [⟨"um", 0, 1⟩, ⟨"hello", 1, 2⟩, ⟨"world", 2, 3⟩] = ⟨0, 0, 0, 0, 0, []⟩ :=
  ⟨by decide,
    analyzePacing_short_input_zeroed [⟨"um", 0, 1⟩, ⟨"hello", 1, 2⟩, ⟨"world", 2, 3⟩] (by decide)⟩

/-- Claim C9: `analyze_pacing` is total; for a sequence of 10 or more words
whose total span is zero the division behind `wpm_avg` is guarded and the
function returns `wpm_avg = 0`, and the final timeline segment's
normalization is likewise guarded when its elapsed duration is zero (it falls
back to the raw word count). -/
theorem analyzePacing_zero_span_guarded (words : List Word)
    (h10 : 10 ≤ words.length)
    (hspan : (words.getLastD default).stop = words.headI.start) :
    (analyzePacing words).wpm_avg = 0 ∧
      ∀ (cnt : ℕ) (cs : ℚ), finalSegWpm cnt cs cs = (cnt : ℚ) := by
  constructor
  · have h9 : ¬ words.length < 10 := by omega
    have hraw : pacingWpmAvgRaw words = 0 := by
      unfold pacingWpmAvgRaw totalDurationMinutes
      rw [hspan]
      simp
    simp only [analyzePacing, h9, if_false]
    rw [hraw]
    decide
  · intro cnt cs
    unfold finalSegWpm
    simp

/-- Witness for C9: ten words all timestamped at 0 have a zero span and get
`wpm_avg = 0`. -/
theorem analyzePacing_zero_span_guarded_witness :
    10 ≤ ((List.range 10).map fun _ => (⟨"w", 0, 0⟩ : Word)).length ∧
      (analyzePacing ((List.range 10).map fun _ => (⟨"w", 0, 0⟩ : Word))).wpm_avg = 0 :=
  ⟨by decide,
    (analyzePacing_zero_span_guarded ((List.range 10).map fun _ => (⟨"w", 0, 0⟩ : Word))
      (by decide) (by decide)).1⟩

/-- Claim C7: if the external nonsensical-word call raises (modelled by
`nonsensicalSvc = none`), `analyze_clarity` still returns a complete result:
it is exactly the result computed with an empty flagged list, and in it
`nonsensical_word_count = 0` and `nonsensical_words = []`, while the
filler-word fields and the clarity score are computed normally; the analyzer
never propagates the failure. -/
theorem analyzeClarity_service_failure_graceful (words : List Word) (text : String) :
    analyzeClarity words text none = analyzeClarity words text (some []) ∧
      (analyzeClarity words text none).nonsensical_word_count = 0 ∧
      (analyzeClarity words text none).nonsensical_words = [] := by
  refine ⟨rfl, ?_, ?_⟩ <;>
    by_cases h : words.isEmpty <;>
      simp [analyzeClarity, h]

/-- Claim C8: the `replace_existing` reset of `initiate_grading` puts the
existing `Grading` back to `processing` and clears every score field —
`overall_score`, `max_possible_score`, the four pacing fields, the four
clarity fields and `detailed_results` — while preserving the record's
identity (`id`, `transcript_id`, `rubric_id`). -/
theorem resetExistingGrading_resets_and_preserves_identity
    (g : GradingRec) (userId sourceType contextType : String)
    (contextId : Option String) (isOfficial : Bool) :
    (resetExistingGrading g userId sourceType contextType contextId isOfficial).status
        = GradingStatus.processing ∧
      (resetExistingGrading g userId sourceType contextType contextId isOfficial).overall_score = none ∧
      (resetExistingGrading g userId sourceType contextType contextId isOfficial).max_possible_score = none ∧
      (resetExistingGrading g userId sourceType contextType contextId isOfficial).pacing_wpm_avg = none ∧
      (resetExistingGrading g userId sourceType contextType contextId isOfficial).pacing_wpm_variance = none ∧
      (resetExistingGrading g userId sourceType contextType contextId isOfficial).pacing_pause_count = none ∧
      (resetExistingGrading g userId sourceType contextType contextId isOfficial).pacing_score = none ∧
      (resetExistingGrading g userId sourceType contextType contextId isOfficial).clarity_filler_word_count = none ∧
      (resetExistingGrading g userId sourceType contextType contextId isOfficial).clarity_filler_word_percentage = none ∧
      (resetExistingGrading g userId sourceType contextType contextId isOfficial).clarity_nonsensical_word_count = none ∧
      (resetExistingGrading g userId sourceType contextType contextId isOfficial).clarity_score = none ∧
      (resetExistingGrading g userId sourceType contextType contextId isOfficial).detailed_results = none ∧
      (resetExistingGrading g userId sourceType contextType contextId isOfficial).id = g.id ∧
      (resetExistingGrading g userId sourceType contextType contextId isOfficial).transcript_id = g.transcript_id ∧
      (resetExistingGrading g userId sourceType contextType contextId isOfficial).rubric_id = g.rubric_id :=
  ⟨rfl, rfl, rfl, rfl, rfl, rfl, rfl, rfl, rfl, rfl, rfl, rfl, rfl, rfl, rfl⟩

/-- A ten-word input spoken at exactly 100 WPM: ten words spread evenly over
6 seconds, with no pauses longer than 1 s and a single timeline segment. -/
def c4words : List Word :=
  (List.range 10).map fun i =>
    ⟨"w", (6 * i : ℚ) / 10, if i = 9 then 6 else (6 * i : ℚ) / 10 + 2 / 5⟩

set_option maxRecDepth 100000 in
/-- Counterexample for C4: `c4words` satisfies every hypothesis of the claim
(at least 10 words, raw `wpm_avg` exactly 100, variance ≤ 400, pause-count
deviation ≤ 5), yet `analyze_pacing` returns `pacing_score = 94`, not 100:
at `wpm_avg = 100` the `elif wpm_avg < 130` band applies a penalty of
`(130 − 100) × 0.2 = 6`. -/
theorem analyzePacing_wpm100_not_full_score_cex :
    10 ≤ c4words.length ∧
      pacingWpmAvgRaw c4words = 100 ∧
      pacingVarianceRaw c4words ≤ 400 ∧
      |((pauseGaps c4words).length : ℚ) - totalDurationMinutes c4words * 0.5| ≤ 5 ∧
      (analyzePacing c4words).pacing_score = 94 ∧ (94 : ℚ) ≠ 100 := by
  refine ⟨by decide, by decide, by decide, by decide, by decide, by decide⟩

/-- Claim C4 (amended): for a word sequence of at least 10 words whose raw
`wpm_avg` is exactly 100 (variance ≤ 400, pause-count deviation ≤ 5), the
"too slow" penalty `(100 − 100) × 0.5` is indeed zero — 100 is not strictly
below the threshold — but the "slightly slow" band `wpm_avg < 130` applies a
penalty of `(130 − 100) × 0.2 = 6`, so `analyze_pacing` returns
`pacing_score = 94`, not 100. -/
theorem analyzePacing_wpm100_pacing_score (words : List Word)
    (h10 : 10 ≤ words.length)
    (hw : pacingWpmAvgRaw words = 100)
    (hv : pacingVarianceRaw words ≤ 400)
    (hp : |((pauseGaps words).length : ℚ) - totalDurationMinutes words * 0.5| ≤ 5) :
    (analyzePacing words).pacing_score = 94 := by
  have h9 : ¬ words.length < 10 := by omega
  have hscore : pacingScoreCalc (pacingWpmAvgRaw words) (pacingVarianceRaw words)
      (pauseGaps words).length (totalDurationMinutes words) = 94 := by
    simp only [pacingScoreCalc]
    rw [hw, if_neg (not_lt.mpr hv), if_neg (not_lt.mpr hp)]
    decide
  simp only [analyzePacing, h9, if_false]
  rw [hscore]
  decide

set_option maxRecDepth 100000 in
/-- Witness for C4's amended theorem at the concrete input `c4words`. -/
theorem analyzePacing_wpm100_pacing_score_witness :
    pacingWpmAvgRaw c4words = 100 ∧ (analyzePacing c4words).pacing_score = 94 :=
  ⟨by decide,
    analyzePacing_wpm100_pacing_score c4words (by decide) (by decide) (by decide) (by decide)⟩

/-- Claim C1: in `grade_presentation`'s aggregation, `max_possible_score` is
`Σ max_score × weight` over ALL rubric criteria irrespective of the returned
scores; an empty `criterion_scores` list yields `overall_score = 0` rather
than an error; and when `max_possible_score > 0`,
`overall_score = round(total_weighted_score / max_possible_score × 100, 1)`. -/
theorem gradePresentation_overall_aggregation (g : GradingRec)
    (tr : Transcript) (criteria : List Criterion)
    (p : PacingResult) (cl : ClarityResult) (scores : List CScore) (fb : String) :
    (gradePresentation g (some tr) true criteria
        (fun _ => .ok p) (fun _ _ => .ok cl)
        (fun _ _ => .ok ⟨scores, fb⟩)).max_possible_score
        = some (maxPossibleScore criteria) ∧
      maxPossibleScore criteria = ((criteria.map fun c => c.max_score * c.weight).sum) ∧
      (scores = [] →
        (gradePresentation g (some tr) true criteria
          (fun _ => .ok p) (fun _ _ => .ok cl)
          (fun _ _ => .ok ⟨scores, fb⟩)).overall_score = some 0) ∧
      (0 < maxPossibleScore criteria →
        (gradePresentation g (some tr) true criteria
          (fun _ => .ok p) (fun _ _ => .ok cl)
          (fun _ _ => .ok ⟨scores, fb⟩)).overall_score
          = some (pyRound (totalWeightedScore scores criteria
              / maxPossibleScore criteria * 100) 1)) := by
  refine ⟨rfl, rfl, ?_, ?_⟩
  · rintro rfl
    show some (pyRound (overallScoreRaw [] criteria) 1) = some 0
    have hz : overallScoreRaw [] criteria = 0 := by
      unfold overallScoreRaw totalWeightedScore
      simp
    rw [hz]
    decide
  · intro hpos
    show some (pyRound (overallScoreRaw scores criteria) 1) = _
    rw [overallScoreRaw, if_pos hpos]

/-- Witness for C1 (the spec's end-to-end scenario): one criterion with
`max_score = 5`, `weight = 1`, a returned score of 4 →
`max_possible_score = 5`, `overall_score = round(4/5×100, 1) = 80.0`. -/
theorem gradePresentation_overall_aggregation_witness :
    0 < maxPossibleScore [⟨"c1", "Content", "", 5, 1, 0⟩] ∧
      (gradePresentation default (some ⟨"talk", some []⟩) true [⟨"c1", "Content", "", 5, 1, 0⟩]
        (fun _ => .ok default) (fun _ _ => .ok default)
        (fun _ _ => .ok ⟨[⟨"c1", "Content", 4, 5, "good"⟩], "fb"⟩)).max_possible_score
        = some (maxPossibleScore [⟨"c1", "Content", "", 5, 1, 0⟩]) ∧
      (gradePresentation default (some ⟨"talk", some []⟩) true [⟨"c1", "Content", "", 5, 1, 0⟩]
        (fun _ => .ok default) (fun _ _ => .ok default)
        (fun _ _ => .ok ⟨[⟨"c1", "Content", 4, 5, "good"⟩], "fb"⟩)).overall_score
        = some (pyRound (totalWeightedScore [⟨"c1", "Content", 4, 5, "good"⟩]
            [⟨"c1", "Content", "", 5, 1, 0⟩] / maxPossibleScore [⟨"c1", "Content", "", 5, 1, 0⟩]
            * 100) 1) ∧
      pyRound (totalWeightedScore [⟨"c1", "Content", 4, 5, "good"⟩]
          [⟨"c1", "Content", "", 5, 1, 0⟩] / maxPossibleScore [⟨"c1", "Content", "", 5, 1, 0⟩]
          * 100) 1 = 80 :=
  ⟨by decide,
    (gradePresentation_overall_aggregation default ⟨"talk", some []⟩
      [⟨"c1", "Content", "", 5, 1, 0⟩] default default
      [⟨"c1", "Content", 4, 5, "good"⟩] "fb").1,
    (gradePresentation_overall_aggregation default ⟨"talk", some []⟩
      [⟨"c1", "Content", "", 5, 1, 0⟩] default default
      [⟨"c1", "Content", 4, 5, "good"⟩] "fb").2.2.2 (by decide),
    by decide⟩

/-- A fresh `Grading` row as created by `initiate_grading`: `processing`,
no score fields set. -/
def freshGrading : GradingRec :=
  ⟨"g1", "t1", "r1", some "u1", GradingStatus.processing,
    none, none, none, none, none, none, none, none, none, none, none,
    some "self", some "practice", none, 0⟩

/-- Counterexample for C2: a run in which pacing analysis succeeds and the
clarity stage raises an uncaught exception ends with `status = failed`, yet
the four pacing fields written before the failure remain set on the persisted
record (the `except` handler only flips the status and commits) — not every
numeric score field is null after a failed run. -/
theorem gradePresentation_partial_fields_persist_cex :
    (gradePresentation freshGrading (some ⟨"hello", some []⟩) true []
        (fun _ => .ok ⟨100, 0, 0, 0, 94, []⟩)
        (fun _ _ => .error ()) (fun _ _ => .error ())).status = GradingStatus.failed ∧
      (gradePresentation freshGrading (some ⟨"hello", some []⟩) true []
        (fun _ => .ok ⟨100, 0, 0, 0, 94, []⟩)
        (fun _ _ => .error ()) (fun _ _ => .error ())).pacing_score = some 94 ∧
      (gradePresentation freshGrading (some ⟨"hello", some []⟩) true []
        (fun _ => .ok ⟨100, 0, 0, 0, 94, []⟩)
        (fun _ _ => .error ()) (fun _ _ => .error ())).pacing_score ≠ none :=
  ⟨rfl, rfl, by decide⟩

/-- Claim C2 (amended): when a run fails before any score field has been
assigned — missing transcript, missing rubric, or an exception raised inside
the pacing stage itself — the persisted record has `status = failed` and all
ten numeric score fields still null; but a failure later in the pipeline only
flips the status to failed and leaves the fields already assigned persisted
(see the counterexample). -/
theorem gradePresentation_early_failure_leaves_scores_unset
    (g : GradingRec) (transcript : Option Transcript) (rubricFound : Bool)
    (criteria : List Criterion)
    (pacingF : List Word → Except Unit PacingResult)
    (clarityF : List Word → String → Except Unit ClarityResult)
    (contentF : String → List Criterion → Except Unit ContentResult)
    (h0 : scoresUnset g)
    (h : transcript = none ∨ rubricFound = false ∨
      (∃ tr, transcript = some tr ∧ pacingF (tr.word_timestamps.getD []) = .error ())) :
    (gradePresentation g transcript rubricFound criteria pacingF clarityF contentF).status
        = GradingStatus.failed ∧
      scoresUnset (gradePresentation g transcript rubricFound criteria pacingF clarityF contentF) := by
  obtain ⟨h1, h2, h3, h4, h5, h6, h7, h8, h9, ha⟩ := h0
  rcases h with rfl | hrf | ⟨tr, rfl, hpf⟩
  · exact ⟨rfl, h1, h2, h3, h4, h5, h6, h7, h8, h9, ha⟩
  · subst hrf
    cases transcript with
    | none => exact ⟨rfl, h1, h2, h3, h4, h5, h6, h7, h8, h9, ha⟩
    | some tr =>
      exact ⟨rfl, h1, h2, h3, h4, h5, h6, h7, h8, h9, ha⟩
  · cases rubricFound with
    | false =>
      exact ⟨rfl, h1, h2, h3, h4, h5, h6, h7, h8, h9, ha⟩
    | true =>
      simp [gradePresentation, hpf, scoresUnset, h1, h2, h3, h4, h5, h6, h7, h8, h9, ha]

/-- Witness for C2's amended theorem: a fresh record with a missing transcript
fails with every score field still null. -/
theorem gradePresentation_early_failure_leaves_scores_unset_witness :
    scoresUnset freshGrading ∧
      (gradePresentation freshGrading none true [] (fun _ => .ok default)
          (fun _ _ => .ok default) (fun _ _ => .ok default)).status = GradingStatus.failed ∧
      scoresUnset (gradePresentation freshGrading none true [] (fun _ => .ok default)
        (fun _ _ => .ok default) (fun _ _ => .ok default)) :=
  ⟨by decide,
    (gradePresentation_early_failure_leaves_scores_unset freshGrading none true []
      (fun _ => .ok default) (fun _ _ => .ok default) (fun _ _ => .ok default)
      (by decide) (Or.inl rfl)).1,
    (gradePresentation_early_failure_leaves_scores_unset freshGrading none true []
      (fun _ => .ok default) (fun _ _ => .ok default) (fun _ _ => .ok default)
      (by decide) (Or.inl rfl)).2⟩

theorem matchCriterion_spec (criteria : List Criterion) (idx : ℕ) (oid : Option String)
    (cr : Criterion) (cid : String)
    (h : matchCriterion criteria idx oid = some (cr, cid)) :
    cr ∈ criteria ∧ cid = cr.id := by
  have hpos : ∀ cr' cid', (criteria.get? idx).map (fun c => (c, c.id)) = some (cr', cid') →
      cr' ∈ criteria ∧ cid' = cr'.id := by
    intro cr' cid' h'
    rw [Option.map_eq_some'] at h'
    obtain ⟨c, hc, hcc⟩ := h'
    have h1 : c = cr' := congrArg Prod.fst hcc
    have h2 : c.id = cid' := congrArg Prod.snd hcc
    subst h1
    exact ⟨List.get?_mem hc, h2.symm⟩
  cases oid with
  | none =>
    simp only [matchCriterion] at h
    exact hpos cr cid h
  | some c =>
    simp only [matchCriterion] at h
    by_cases hc : c ≠ ""
    · rw [if_pos hc] at h
      cases hfind : criterionMapFind criteria c with
      | none => rw [hfind] at h; exact hpos cr cid h
      | some cr' =>
        rw [hfind] at h
        injection h with h'
        have h1 : cr' = cr := congrArg Prod.fst h'
        have h2 : c = cid := congrArg Prod.snd h'
        subst h1
        unfold criterionMapFind at hfind
        refine ⟨List.mem_reverse.mp (List.mem_of_find?_eq_some hfind), ?_⟩
        have hb := List.find?_some hfind
        simp only [beq_iff_eq] at hb
        exact h2.symm.trans hb.symm
    · rw [if_neg hc] at h
      exact hpos cr cid h

theorem contentScoreEntries_sound (criteria : List Criterion) :
    ∀ (ss : List ScoreObj) (idx : ℕ) (e : CScore),
      e ∈ contentScoreEntries criteria idx ss →
      (∃ c ∈ criteria, e.criterion_id = c.id ∧ e.criterion_name = c.name ∧
        e.max_score = c.max_score) ∧ e.score ≤ e.max_score := by
  intro ss
  induction ss with
  | nil => intro idx e he; simp [contentScoreEntries] at he
  | cons s rest ih =>
    intro idx e he
    unfold contentScoreEntries at he
    cases hm : matchCriterion criteria idx s.criterion_id with
    | none => rw [hm] at he; exact ih (idx + 1) e he
    | some p =>
      obtain ⟨cr, cid⟩ := p
      rw [hm] at he
      rcases List.mem_cons.mp he with rfl | htail
      · obtain ⟨hmem, hid⟩ := matchCriterion_spec criteria idx s.criterion_id cr cid hm
        exact ⟨⟨cr, hmem, hid, rfl, rfl⟩, min_le_right _ _⟩
      · exact ih (idx + 1) e htail

/-- Counterexample for C3: the external grader returns a score of −5 for a
criterion with `max_score = 10`; the source stores
`min(score, max_score) = −5` — there is no lower clamp at 0, so the recorded
score is negative rather than 0 as the claim requires. -/
theorem gradeContentWithRubric_negative_score_cex :
    (gradeContentWithRubric [⟨"a", "Organization", "", 10, 1, 0⟩]
        (.ok ([⟨some "a", some (-5), some "fb"⟩], "overall"))).criterion_scores
      = [⟨"a", "Organization", -5, 10, "fb"⟩] ∧
      ∃ e ∈ (gradeContentWithRubric [⟨"a", "Organization", "", 10, 1, 0⟩]
        (.ok ([⟨some "a", some (-5), some "fb"⟩], "overall"))).criterion_scores,
        e.score < 0 :=
  ⟨by decide, ⟨⟨"a", "Organization", -5, 10, "fb"⟩, by decide, by decide⟩⟩

/-- Claim C3 (amended): every score recorded by `grade_content_with_rubric`
is capped above at the matched criterion's `max_score`
(`min(score, max_score)`), so it never exceeds `max_score`; but the source
applies no lower clamp, and a returned score below 0 is stored unchanged
(see the counterexample). -/
theorem gradeContentWithRubric_score_le_max (criteria : List Criterion)
    (resp : Except String (List ScoreObj × String)) (e : CScore)
    (he : e ∈ (gradeContentWithRubric criteria resp).criterion_scores) :
    e.score ≤ e.max_score := by
  unfold gradeContentWithRubric at he
  split at he
  · simp at he
  · split at he
    · simp at he
    · exact (contentScoreEntries_sound criteria _ 0 e he).2

/-- Witness for C3's amended theorem: a returned score of 15 against
`max_score = 10` is stored as 10, which satisfies the bound. -/
theorem gradeContentWithRubric_score_le_max_witness :
    (⟨"a", "Organization", 10, 10, ""⟩ : CScore) ∈
        (gradeContentWithRubric [⟨"a", "Organization", "", 10, 1, 0⟩]
          (.ok ([⟨some "a", some 15, none⟩], "overall"))).criterion_scores ∧
      (⟨"a", "Organization", 10, 10, ""⟩ : CScore).score
        ≤ (⟨"a", "Organization", 10, 10, ""⟩ : CScore).max_score :=
  ⟨by decide,
    gradeContentWithRubric_score_le_max [⟨"a", "Organization", "", 10, 1, 0⟩]
      (.ok ([⟨some "a", some 15, none⟩], "overall")) ⟨"a", "Organization", 10, 10, ""⟩
      (by decide)⟩

/-- Claim C10: every entry of the `criterion_scores` list built by
`grade_content_with_rubric` references a criterion of the supplied list — its
`criterion_id`, `criterion_name` and `max_score` come from the matched
criterion (matched by identifier first, else by position); entries matching
no criterion are dropped, so no entry references an unknown criterion. -/
theorem gradeContentWithRubric_entries_known_criterion (criteria : List Criterion)
    (resp : Except String (List ScoreObj × String)) (e : CScore)
    (he : e ∈ (gradeContentWithRubric criteria resp).criterion_scores) :
    ∃ c ∈ criteria, e.criterion_id = c.id ∧ e.criterion_name = c.name ∧
      e.max_score = c.max_score := by
  unfold gradeContentWithRubric at he
  split at he
  · simp at he
  · split at he
    · simp at he
    · exact (contentScoreEntries_sound criteria _ 0 e he).1

/-- Witness for C10: a returned entry whose identifier matches no criterion is
reconciled positionally to the first criterion, whose identity it carries. -/
theorem gradeContentWithRubric_entries_known_criterion_witness :
    (⟨"b", "Clarity", 3, 4, ""⟩ : CScore) ∈
        (gradeContentWithRubric [⟨"b", "Clarity", "", 4, 2, 0⟩]
          (.ok ([⟨some "zzz", some 3, none⟩], "f"))).criterion_scores ∧
      ∃ c ∈ [(⟨"b", "Clarity", "", 4, 2, 0⟩ : Criterion)],
        (⟨"b", "Clarity", 3, 4, ""⟩ : CScore).criterion_id = c.id ∧
        (⟨"b", "Clarity", 3, 4, ""⟩ : CScore).criterion_name = c.name ∧
        (⟨"b", "Clarity", 3, 4, ""⟩ : CScore).max_score = c.max_score :=
  ⟨by decide,
    gradeContentWithRubric_entries_known_criterion [⟨"b", "Clarity", "", 4, 2, 0⟩]
      (.ok ([⟨some "zzz", some 3, none⟩], "f")) ⟨"b", "Clarity", 3, 4, ""⟩ (by decide)⟩

/-! ## The fixed-window partition property (C5) -/

/-- Number of words whose `start` lies in the 60-second window beginning at
`c`. -/
def countInWindow (c : ℚ) (ws : List Word) : ℕ :=
  (ws.filter fun w => decide (c ≤ w.start ∧ w.start < c + 60)).length

/-- Formalization of "each word is counted in the window whose interval
contains its start timestamp": the window start each word was attributed to
during the segmentation loop bounds the word's start within 60 seconds. -/
def attributionContainsStarts (words : List Word) : Prop :=
  ∀ i, i < words.length →
    (wordAttribution words).getD i 0 ≤ (words.getD i default).start ∧
      (words.getD i default).start < (wordAttribution words).getD i 0 + 60

/-- Formalization of "each non-final timeline segment covers one 60-second
window measured from the first word's start, and its recorded wpm equals the
number of words whose start lies in that window". -/
def timelineWindowsCorrect (words : List Word) : Prop :=
  ∀ s ∈ (pacingTimeline words).dropLast,
    s.stop = s.start + 60 ∧ (∃ k : ℕ, s.start = words.headI.start + 60 * k) ∧
      s.wpm = (countInWindow s.start words : ℚ)

/-- The window-partition property asserted by claim C5. -/
def pacingWindowClaim (words : List Word) : Prop :=
  attributionContainsStarts words ∧ timelineWindowsCorrect words

/-- Words sorted by `start`, consecutive starts at most 60 seconds apart (so
no word skips an entire 60-second window). -/
def sortedGap60 (words : List Word) : Prop :=
  words.Chain' fun a b => a.start ≤ b.start ∧ b.start ≤ a.start + 60

instance (l : List Word) : Decidable (sortedGap60 l) :=
  inferInstanceAs (Decidable (l.Chain' fun a b : Word => a.start ≤ b.start ∧ b.start ≤ a.start + 60))

/-- Nine words in the first minute followed by one word 130 seconds in: the
tenth word's start lies in the third window `[120, 180)`, but the loop only
advances one window per word. -/
def c5words : List Word :=
  ((List.range 9).map fun i => ⟨"w", (i : ℚ), (i : ℚ) + 2 / 5⟩) ++ [⟨"w", 130, 131⟩]

set_option maxRecDepth 100000 in
/-- Counterexample for C5: on `c5words` (10 words) the tenth word, starting at
130 s, is counted in the window beginning at 60 s — `130 < 60 + 60` fails —
so it is *not* counted in the window containing its start. -/
theorem pacingTimeline_window_attribution_cex :
    10 ≤ c5words.length ∧ ¬ pacingWindowClaim c5words := by
  refine ⟨by decide, fun hcl => ?_⟩
  have h := hcl.1 9 (by decide)
  revert h
  decide

theorem chain_start_le {prev : Word} {ws : List Word}
    (h : List.Chain (fun a b : Word => a.start ≤ b.start ∧ b.start ≤ a.start + 60) prev ws) :
    ∀ x ∈ ws, prev.start ≤ x.start := by
  induction ws generalizing prev with
  | nil => simp
  | cons w ws ih =>
    rcases List.chain_cons.mp h with ⟨⟨h1, _⟩, hch⟩
    intro x hx
    rcases List.mem_cons.mp hx with rfl | hx'
    · exact h1
    · exact le_trans h1 (ih hch x hx')

theorem countInWindow_append (c : ℚ) (l1 l2 : List Word) :
    countInWindow c (l1 ++ l2) = countInWindow c l1 + countInWindow c l2 := by
  simp [countInWindow, List.filter_append]

theorem countInWindow_zero_of_below (c : ℚ) (l : List Word)
    (h : ∀ x ∈ l, x.start < c) : countInWindow c l = 0 := by
  unfold countInWindow
  rw [List.length_eq_zero, List.filter_eq_nil_iff]
  intro x hx
  simp only [decide_eq_true_eq, not_and]
  intro hcx
  exact absurd (h x hx) (not_lt.mpr hcx)

theorem countInWindow_zero_of_ge (c : ℚ) (l : List Word)
    (h : ∀ x ∈ l, c + 60 ≤ x.start) : countInWindow c l = 0 := by
  unfold countInWindow
  rw [List.length_eq_zero, List.filter_eq_nil_iff]
  intro x hx
  simp only [decide_eq_true_eq, not_and, not_lt]
  intro _
  exact h x hx

theorem countInWindow_singleton (c : ℚ) (w : Word)
    (h1 : c ≤ w.start) (h2 : w.start < c + 60) : countInWindow c [w] = 1 := by
  simp [countInWindow, h1, h2]

theorem segLoop_spec (t0 : ℚ) :
    ∀ (ws done : List Word) (prev : Word) (st : SegState),
      List.Chain (fun a b : Word => a.start ≤ b.start ∧ b.start ≤ a.start + 60) prev ws →
      st.cs ≤ prev.start →
      prev.start < st.cs + 60 →
      (∃ k : ℕ, st.cs = t0 + 60 * k) →
      (∀ w ∈ done, w.start ≤ prev.start) →
      st.cnt = countInWindow st.cs done →
      1 ≤ st.cnt →
      (∃ delta,
        (ws.foldl segStep st).segs = st.segs ++ delta ∧
        ∀ s ∈ delta, s.stop = s.start + 60 ∧ (∃ k : ℕ, s.start = t0 + 60 * k) ∧
          s.wpm = (countInWindow s.start (done ++ ws) : ℚ)) ∧
      (∃ adelta,
        (ws.foldl segStep st).attrs = st.attrs ++ adelta ∧
        adelta.length = ws.length ∧
        ∀ i, i < ws.length →
          adelta.getD i 0 ≤ (ws.getD i default).start ∧
            (ws.getD i default).start < adelta.getD i 0 + 60) ∧
      1 ≤ (ws.foldl segStep st).cnt := by
  intro ws
  induction ws with
  | nil =>
    intro done prev st _ _ _ _ _ _ hcnt1
    refine ⟨⟨[], by simp, by simp⟩, ⟨[], by simp, rfl, ?_⟩, hcnt1⟩
    intro i hi
    exact absurd hi (by simp)
  | cons w ws ih =>
    intro done prev st hch hcs1 hcs2 halign hdone hcnt hcnt1
    rcases List.chain_cons.mp hch with ⟨⟨hpw1, hpw2⟩, hch'⟩
    by_cases hadv : w.start ≥ st.cs + 60
    · -- the loop closes the current window and advances by one window
      have hstep : segStep st w =
          ⟨st.cs + 60, 1, st.segs ++ [⟨st.cs, st.cs + 60, (st.cnt : ℚ)⟩],
            st.attrs ++ [st.cs + 60]⟩ := by
        unfold segStep
        rw [if_pos hadv, if_pos (by omega : st.cnt > 0)]
      have hw2 : w.start < (st.cs + 60) + 60 := by
        have : prev.start + 60 < st.cs + 60 + 60 := by linarith
        exact lt_of_le_of_lt hpw2 this
      have hdone' : ∀ x ∈ done ++ [w], x.start ≤ w.start := by
        intro x hx
        rcases List.mem_append.mp hx with hx' | hx'
        · exact le_trans (hdone x hx') hpw1
        · rcases List.mem_singleton.mp hx' with rfl; exact le_refl _
      have hcnt' : (1 : ℕ) = countInWindow (st.cs + 60) (done ++ [w]) := by
        rw [countInWindow_append,
          countInWindow_zero_of_below _ done
            (fun x hx => lt_of_le_of_lt (hdone x hx) hcs2),
          countInWindow_singleton _ w hadv hw2]
      obtain ⟨⟨delta', hsegs', hdelta'⟩, ⟨adelta', hattrs', hlen', hadel'⟩, hcnt''⟩ :=
        ih (done ++ [w]) w
          ⟨st.cs + 60, 1, st.segs ++ [⟨st.cs, st.cs + 60, (st.cnt : ℚ)⟩],
            st.attrs ++ [st.cs + 60]⟩
          hch' hadv hw2
          (by
            obtain ⟨k, hk⟩ := halign
            exact ⟨k + 1, by rw [hk]; push_cast; ring⟩)
          hdone' hcnt' (le_refl 1)
      have hws0 : countInWindow st.cs (w :: ws) = 0 := by
        apply countInWindow_zero_of_ge
        intro x hx
        rcases List.mem_cons.mp hx with rfl | hx'
        · exact hadv
        · exact le_trans hadv (chain_start_le hch' x hx')
      refine ⟨⟨⟨st.cs, st.cs + 60, (st.cnt : ℚ)⟩ :: delta', ?_, ?_⟩,
        ⟨(st.cs + 60) :: adelta', ?_, ?_, ?_⟩, ?_⟩
      · rw [List.foldl_cons, hstep, hsegs']
        simp
      · intro s hs
        rcases List.mem_cons.mp hs with rfl | hs'
        · refine ⟨rfl, halign, ?_⟩
          have hn : countInWindow st.cs (done ++ w :: ws) = st.cnt := by
            rw [countInWindow_append, hws0, ← hcnt]
            omega
          show (st.cnt : ℚ) = (countInWindow st.cs (done ++ w :: ws) : ℚ)
          exact_mod_cast hn.symm
        · have h' := hdelta' s hs'
          refine ⟨h'.1, h'.2.1, ?_⟩
          have : (done ++ [w]) ++ ws = done ++ w :: ws := by simp
          rw [← this]
          exact h'.2.2
      · rw [List.foldl_cons, hstep, hattrs']
        simp
      · simpa using hlen'
      · intro i hi
        cases i with
        | zero =>
          simp only [List.getD_cons_zero]
          exact ⟨hadv, hw2⟩
        | succ j =>
          simp only [List.getD_cons_succ]
          exact hadel' j (by simpa using hi)
      · rw [List.foldl_cons, hstep]
        exact hcnt''
    · -- the word is counted in the current window
      have hstep : segStep st w = { st with cnt := st.cnt + 1, attrs := st.attrs ++ [st.cs] } := by
        unfold segStep
        rw [if_neg hadv]
      have hw1 : st.cs ≤ w.start := le_trans hcs1 hpw1
      have hw2 : w.start < st.cs + 60 := lt_of_not_ge hadv
      have hdone' : ∀ x ∈ done ++ [w], x.start ≤ w.start := by
        intro x hx
        rcases List.mem_append.mp hx with hx' | hx'
        · exact le_trans (hdone x hx') hpw1
        · rcases List.mem_singleton.mp hx' with rfl; exact le_refl _
      have hcnt' : st.cnt + 1 = countInWindow st.cs (done ++ [w]) := by
        rw [countInWindow_append, countInWindow_singleton _ w hw1 hw2, ← hcnt]
      obtain ⟨⟨delta', hsegs', hdelta'⟩, ⟨adelta', hattrs', hlen', hadel'⟩, hcnt''⟩ :=
        ih (done ++ [w]) w { st with cnt := st.cnt + 1, attrs := st.attrs ++ [st.cs] }
          hch' hw1 hw2 halign hdone' hcnt' (Nat.succ_le_succ (Nat.zero_le _))
      refine ⟨⟨delta', ?_, ?_⟩, ⟨st.cs :: adelta', ?_, ?_, ?_⟩, ?_⟩
      · rw [List.foldl_cons, hstep]
        exact hsegs'
      · intro s hs
        have h' := hdelta' s hs
        refine ⟨h'.1, h'.2.1, ?_⟩
        have : (done ++ [w]) ++ ws = done ++ w :: ws := by simp
        rw [← this]
        exact h'.2.2
      · rw [List.foldl_cons, hstep, hattrs']
        simp
      · simpa using hlen'
      · intro i hi
        cases i with
        | zero =>
          simp only [List.getD_cons_zero]
          exact ⟨hw1, hw2⟩
        | succ j =>
          simp only [List.getD_cons_succ]
          exact hadel' j (by simpa using hi)
      · rw [List.foldl_cons, hstep]
        exact hcnt''

/-- Claim C5 (amended): *provided the words are sorted by start time and no
two consecutive starts are more than 60 seconds apart* (so no word skips an
entire window — see the counterexample for why this precondition is
necessary), the segmentation loop of `analyze_pacing` counts each word in the
window containing its start, and every non-final timeline segment covers one
60-second window measured from the first word's start with `wpm` equal to the
number of words starting in that window. -/
theorem pacingTimeline_window_claim_of_sortedGap (words : List Word)
    (h10 : 10 ≤ words.length) (hs : sortedGap60 words) :
    pacingWindowClaim words := by
  cases words with
  | nil => simp at h10
  | cons w0 rest =>
    have hch : List.Chain (fun a b : Word => a.start ≤ b.start ∧ b.start ≤ a.start + 60)
        w0 rest := hs
    have hinit : segStep (segInit (w0 :: rest)) w0 = ⟨w0.start, 1, [], [w0.start]⟩ := by
      unfold segStep segInit
      rw [if_neg (by simp [List.headI])]
      simp [List.headI]
    obtain ⟨⟨delta, hsegs, hdelta⟩, ⟨adelta, hattrs, hlen, hadel⟩, hcnt1⟩ :=
      segLoop_spec w0.start rest [w0] w0 ⟨w0.start, 1, [], [w0.start]⟩
        hch (le_refl _) (by linarith) ⟨0, by ring⟩ (by simp)
        (by rw [countInWindow_singleton w0.start w0 (le_refl _) (by linarith)])
        (le_refl 1)
    have hfold : (w0 :: rest).foldl segStep (segInit (w0 :: rest))
        = rest.foldl segStep ⟨w0.start, 1, [], [w0.start]⟩ := by
      rw [List.foldl_cons, hinit]
    constructor
    · intro i hi
      unfold wordAttribution
      rw [hfold, hattrs]
      cases i with
      | zero => constructor <;> simp
      | succ j =>
        have hj : j < rest.length := by simpa using hi
        simpa using hadel j hj
    · intro s hsm
      have hcpos : (rest.foldl segStep ⟨w0.start, 1, [], [w0.start]⟩).cnt > 0 := hcnt1
      rw [pacingTimeline.eq_def, hfold, if_pos hcpos, List.dropLast_concat, hsegs] at hsm
      simp only [List.nil_append] at hsm
      obtain ⟨hstop, ⟨k, hk⟩, hwpm⟩ := hdelta s hsm
      refine ⟨hstop, ⟨k, ?_⟩, ?_⟩
      · simpa [List.headI] using hk
      · simpa using hwpm

/-- The ten-word sorted witness input for C5: starts every 10 seconds, all
gaps at most 60. -/
def c5sortedWords : List Word :=
  [⟨"w", 0, 1⟩, ⟨"w", 10, 11⟩, ⟨"w", 20, 21⟩, ⟨"w", 30, 31⟩, ⟨"w", 40, 41⟩,
   ⟨"w", 50, 51⟩, ⟨"w", 60, 61⟩, ⟨"w", 70, 71⟩, ⟨"w", 80, 81⟩, ⟨"w", 90, 91⟩]

/-- Witness for C5's amended theorem: ten words starting every 10 seconds
(sorted, all gaps ≤ 60) satisfy the window-partition property. -/
theorem pacingTimeline_window_claim_of_sortedGap_witness :
    10 ≤ c5sortedWords.length ∧ sortedGap60 c5sortedWords ∧
      pacingWindowClaim c5sortedWords :=
  ⟨by decide,
    by norm_num [sortedGap60, c5sortedWords, List.chain'_cons, List.chain'_singleton],
    pacingTimeline_window_claim_of_sortedGap c5sortedWords (by decide)
      (by norm_num [sortedGap60, c5sortedWords, List.chain'_cons, List.chain'_singleton])⟩

end SpeakWell
